import Mathlib

/-!
Verification development for the blade structural-analysis module
`wisdem/rotorse/rotor_structure.py`.

Numbers: the source's numpy floating-point arithmetic is embedded as exact
arithmetic — over `ℚ` for the purely rational components
(ResizeCompositeSection, ConstraintsStructures, ExtremeLoads) and over `ℝ`
where the source uses transcendental functions.  Division is Lean's total
division (`x / 0 = 0`); the source file contains no exception-raising
statement at all, so every compute method is embedded as a total function.
-/

/-! ## ResizeCompositeSection (source lines 166-202) -/

/-- Elementwise scaling of one sector's ply-thickness array: source line 183
applies `m*factor[i]` to each entry of `upperCS[i].t`, and lines 194-198
apply `*= sparT[i]/tspar` (resp. `teT[i]/tte`) to one sector's array. -/
def scaleSec (c : ℚ) (sec : List ℚ) : List ℚ :=
  sec.map (fun t => t * c)

/-- In-place update of the Python list `cs.t` at index `idx` by `f`
(identity when the index is out of range; the source assumes valid
sector indices). -/
def updSec (f : List ℚ → List ℚ) : ℕ → List (List ℚ) → List (List ℚ)
  | _, [] => []
  | 0, sec :: rest => f sec :: rest
  | n + 1, sec :: rest => sec :: updSec f n rest

/-- Sector lookup `cs.t[idx]` (empty when out of range). -/
def getSec (cs : List (List ℚ)) (idx : ℕ) : List ℚ :=
  cs.getD idx []

/-- Per-station state of `ResizeCompositeSection`: the scalar inputs and the
ply-thickness arrays (one list per sector) of the three CompositeSection
objects, which the source mutates in place. -/
structure ResizeState where
  chord : ℚ
  chord_ref : ℚ
  sparT : ℚ
  teT : ℚ
  idx_spar : ℕ
  idx_te : ℕ
  upperCS : List (List ℚ)
  lowerCS : List (List ℚ)
  websCS : List (List ℚ)
deriving DecidableEq

/-- `ResizeCompositeSection.compute` at one station (source lines 166-202):
scale every ply thickness by `factor = chord/chord_ref` (line 183), read the
spar and TE sector sums from the scaled upper surface (lines 191-192), then
rescale the spar and TE sectors of upper and lower to the targets
(lines 194-198).  The source mutates the input CompositeSection objects in
place and assigns those same objects to the discrete outputs (lines
200-202), so the returned state is simultaneously the output and the
post-call state of the inputs. -/
def resizeStation (s : ResizeState) : ResizeState :=
  let factor := s.chord / s.chord_ref
  let upper1 := s.upperCS.map (scaleSec factor)
  let lower1 := s.lowerCS.map (scaleSec factor)
  let webs1 := s.websCS.map (scaleSec factor)
  let tspar := (getSec upper1 s.idx_spar).sum
  let tte := (getSec upper1 s.idx_te).sum
  let upper2 := updSec (scaleSec (s.sparT / tspar)) s.idx_spar upper1
  let lower2 := updSec (scaleSec (s.sparT / tspar)) s.idx_spar lower1
  let upper3 := updSec (scaleSec (s.teT / tte)) s.idx_te upper2
  let lower3 := updSec (scaleSec (s.teT / tte)) s.idx_te lower2
  { s with upperCS := upper3, lowerCS := lower3, websCS := webs1 }

/-! ## ConstraintsStructures (source lines 1976-2008) -/

/-- Per-station inputs of `ConstraintsStructures.compute` that feed the
strain-margin and damage-margin outputs (the frequency and buckling outputs
of the same method are not needed here). -/
structure ConstraintsIn where
  strainU_spar : ℚ
  strainL_spar : ℚ
  strainU_te : ℚ
  strainL_te : ℚ
  strain_ult_spar : ℚ
  strain_ult_te : ℚ
  damageU_spar : ℚ
  damageL_spar : ℚ
  damageU_te : ℚ
  damageL_te : ℚ
  gamma_f : ℚ
  gamma_m : ℚ

/-- Strain-margin and damage-margin outputs of `ConstraintsStructures`. -/
structure ConstraintsOut where
  rotor_strain_sparU : ℚ
  rotor_strain_sparL : ℚ
  rotor_strain_teU : ℚ
  rotor_strain_teL : ℚ
  rotor_damage_sparU : ℚ
  rotor_damage_sparL : ℚ
  rotor_damage_teU : ℚ
  rotor_damage_teL : ℚ

/-- `ConstraintsStructures.compute`, strain and damage outputs (source lines
1981 and 1995-2008): `gamma_strain = gamma_f * gamma_m`, each strain margin
is `strain * gamma_strain / strain_ult`, and the damage outputs are passed
through unchanged. -/
def constraintsStructures (i : ConstraintsIn) : ConstraintsOut :=
  let gamma_strain := i.gamma_f * i.gamma_m
  { rotor_strain_sparU := i.strainU_spar * gamma_strain / i.strain_ult_spar
    rotor_strain_sparL := i.strainL_spar * gamma_strain / i.strain_ult_spar
    rotor_strain_teU := i.strainU_te * gamma_strain / i.strain_ult_te
    rotor_strain_teL := i.strainL_te * gamma_strain / i.strain_ult_te
    rotor_damage_sparU := i.damageU_spar
    rotor_damage_sparL := i.damageL_spar
    rotor_damage_teU := i.damageU_te
    rotor_damage_teL := i.damageL_te }

/-! ## ExtremeLoads (source lines 1793-1800) -/

/-- `ExtremeLoads.compute` (source lines 1793-1800), returning
`(T_extreme, Q_extreme)`.  `Q_extreme` is computed at line 1798 but the
output assigned at line 1800 is the constant `0.0`. -/
def extremeLoads (T : ℚ × ℚ) (Q : ℚ × ℚ) (nBlades : ℕ) : ℚ × ℚ :=
  let n : ℚ := nBlades
  let T_extreme := (T.1 + T.2 * (n - 1)) / n
  let Q_extreme := (Q.1 + Q.2 * (n - 1)) / n
  (T_extreme, 0)

/-! ## RotorWithpBEAM: principal axes, strain, damage (source lines 711-798) -/

/-- Four-quadrant arctangent with the conventions of `np.arctan2(y, x)`
on real numbers (signed floating zeros aside). -/
noncomputable def atan2 (y x : ℝ) : ℝ :=
  if 0 < x then Real.arctan (y / x)
  else if x < 0 then
    (if 0 ≤ y then Real.arctan (y / x) + Real.pi else Real.arctan (y / x) - Real.pi)
  else
    (if 0 < y then Real.pi / 2 else if y < 0 then -(Real.pi / 2) else 0)

/-- State produced by `RotorWithpBEAM.principalCS` and consumed by `strain`
and `damage`: axial stiffness, principal-axis angle, principal bending
stiffnesses and the cosine/sine of the angle (`self.EA`, `self.EI11`,
`self.EI22`, `self.ca`, `self.sa`). -/
structure PrincipalCS where
  EA : ℝ
  alpha : ℝ
  EI11 : ℝ
  EI22 : ℝ
  ca : ℝ
  sa : ℝ

/-- `RotorWithpBEAM.principalCS` (source lines 711-734), embedded statement
by statement.  The source's "rename (with swap of x, y for profile c.s.)"
is four sequential assignments, `EIxx = np.copy(EIyy)`,
`EIyy = np.copy(EIxx)`, `x_ec = np.copy(y_ec)`, `y_ec = np.copy(x_ec)`: the
second of each pair reads the variable already overwritten by the first, so
no swap takes place.  The sequential `let` bindings below reproduce this
exactly. -/
noncomputable def principalCS (EIyy EIxx y_ec x_ec EA EIxy : ℝ) : PrincipalCS :=
  let EIxx1 := EIyy
  let EIyy1 := EIxx1
  let x_ec1 := y_ec
  let y_ec1 := x_ec1
  let EIxx2 := EIxx1 - y_ec1 ^ 2 * EA
  let EIyy2 := EIyy1 - x_ec1 ^ 2 * EA
  let EIxy2 := EIxy - x_ec1 * y_ec1 * EA
  let alpha := 0.5 * atan2 (2 * EIxy2) (EIyy2 - EIxx2)
  { EA := EA
    alpha := alpha
    EI11 := EIxx2 - EIxy2 * Real.tan alpha
    EI22 := EIyy2 + EIxy2 * Real.tan alpha
    ca := Real.cos alpha
    sa := Real.sin alpha }

/-- Modelled from the spec: the spec's principal-axis test recomputes the
coupled bending stiffness EIxy of a section (EIxx, EIyy, EIxy taken about
its elastic center) in axes rotated by the angle `a`.  This is the standard
second-moment transformation, consistent with the coordinate rotation used
in `strain` below: with x1 = x cos a + y sin a and y1 = -x sin a + y cos a,
the integral of E x1 y1 over the section equals
(EIxx - EIyy)/2 sin 2a + EIxy cos 2a. -/
noncomputable def rotatedEIxy (EIxx EIyy EIxy a : ℝ) : ℝ :=
  (EIxx - EIyy) / 2 * Real.sin (2 * a) + EIxy * Real.cos (2 * a)

/-- The computation `principalCS` announces in its comment: the same
translation, angle and principal stiffnesses, but with the profile-frame
rename done as an actual swap (as `strain` does its swaps by tuple
assignment).  Kept alongside the embedding of the source to show that the
spec's nulling property holds of the intended computation and fails only
through the sequential-assignment slip. -/
noncomputable def principalCS_intended (EIyy EIxx y_ec x_ec EA EIxy : ℝ) : PrincipalCS :=
  let EIxxs := EIyy
  let EIyys := EIxx
  let x_ecs := y_ec
  let y_ecs := x_ec
  let EIxx2 := EIxxs - y_ecs ^ 2 * EA
  let EIyy2 := EIyys - x_ecs ^ 2 * EA
  let EIxy2 := EIxy - x_ecs * y_ecs * EA
  let alpha := 0.5 * atan2 (2 * EIxy2) (EIyy2 - EIxx2)
  { EA := EA
    alpha := alpha
    EI11 := EIxx2 - EIxy2 * Real.tan alpha
    EI22 := EIyy2 + EIxy2 * Real.tan alpha
    ca := Real.cos alpha
    sa := Real.sin alpha }

/-- `RotorWithpBEAM.strain` (source lines 737-762), returning
`(strainU, strainL)`.  The resultants `Mx, My, Fz` come from the external
beam solver (`blade.shearAndBending()` is pBEAM, outside src/), so they are
taken as inputs.  The source swaps moments and recovery-point coordinates
into the profile coordinate system by tuple assignment (`Mx, My = My, Mx`
and `xu, yu = yu, xu` — a correct swap here, unlike `principalCS`), then
rotates by the principal-axis angle. -/
noncomputable def strain (st : PrincipalCS) (Mx My Fz xu yu xl yl : ℝ) : ℝ × ℝ :=
  let Mx1 := My
  let My1 := Mx
  let xu1 := yu
  let yu1 := xu
  let xl1 := yl
  let yl1 := xl
  let M1 := Mx1 * st.ca + My1 * st.sa
  let M2 := -Mx1 * st.sa + My1 * st.ca
  let x := xu1 * st.ca + yu1 * st.sa
  let y := -xu1 * st.sa + yu1 * st.ca
  let strainU := -(M1 / st.EI11 * y - M2 / st.EI22 * x + Fz / st.EA)
  let x2 := xl1 * st.ca + yl1 * st.sa
  let y2 := -xl1 * st.sa + yl1 * st.ca
  let strainL := -(M1 / st.EI11 * y2 - M2 / st.EI22 * x2 + Fz / st.EA)
  (strainU, strainL)

/-- `RotorWithpBEAM.damage` (source lines 764-798), returning
`(damageU, damageL)`: recompute the strains with `Fz = 0`, then apply the
implemented log-utilization form (lines 795-796; the classical `N/Nf` ratio
at lines 792-793 is commented out in the source). -/
noncomputable def damage (st : PrincipalCS) (Mx My xu yu xl yl emax eta m N : ℝ) : ℝ × ℝ :=
  let Mx1 := My
  let My1 := Mx
  let Fz : ℝ := 0
  let xu1 := yu
  let yu1 := xu
  let xl1 := yl
  let yl1 := xl
  let M1 := Mx1 * st.ca + My1 * st.sa
  let M2 := -Mx1 * st.sa + My1 * st.ca
  let x := xu1 * st.ca + yu1 * st.sa
  let y := -xu1 * st.sa + yu1 * st.ca
  let strainU := -(M1 / st.EI11 * y - M2 / st.EI22 * x + Fz / st.EA)
  let x2 := xl1 * st.ca + yl1 * st.sa
  let y2 := -xl1 * st.sa + yl1 * st.ca
  let strainL := -(M1 / st.EI11 * y2 - M2 / st.EI22 * x2 + Fz / st.EA)
  let damageU := Real.log N - m * (Real.log emax - Real.log eta - Real.log |strainU|)
  let damageL := Real.log N - m * (Real.log emax - Real.log eta - Real.log |strainL|)
  (damageU, damageL)

/-- Rotation of a pair of components into the frame rotated by angle `a`,
as the claims state it: `(a1, a2)` maps to
`(a1 cos a + a2 sin a, -a1 sin a + a2 cos a)`. -/
noncomputable def rot2 (a : ℝ) (p : ℝ × ℝ) : ℝ × ℝ :=
  (p.1 * Real.cos a + p.2 * Real.sin a, -p.1 * Real.sin a + p.2 * Real.cos a)

/-! ## PreCompSections.panelBucklingStrain (source lines 283-320) -/

/-- `PreCompSections.panelBucklingStrain` (source lines 283-320) at one
station.  `cs.compositeMatrices(sector_idx)` and
`cs.effectiveEAxial(sector_idx)` are PreComp code outside src/, so the
sector bending stiffnesses `D1 = D[0,0]`, `D2 = D[1,1]`,
`D3 = D[0,1] + 2 D[2,2]`, the laminate thickness `totalHeight` and the
effective axial modulus `E` they return are taken as inputs.
`loc_lo` and `loc_hi` are `cs.loc[sector_idx]` and `cs.loc[sector_idx+1]`. -/
noncomputable def panelBucklingStrain (chord loc_lo loc_hi D1 D2 D3 totalHeight E : ℝ) : ℝ :=
  let sector_length := chord * (loc_hi - loc_lo)
  let Nxx := 2 * (Real.pi / sector_length) ^ 2 * (Real.sqrt (D1 * D2) + D3)
  let eps_crit := -Nxx / totalHeight / E
  eps_crit

/-! ## BladeCurvature (source lines 482-505) -/

/-- Euclidean distance between consecutive station positions
`(r, precurve, presweep)`. -/
noncomputable def dist3 (p q : ℝ × ℝ × ℝ) : ℝ :=
  Real.sqrt ((q.1 - p.1) ^ 2 + (q.2.1 - p.2.1) ^ 2 + (q.2.2 - p.2.2) ^ 2)

/-- Modelled from the spec: the cumulative 3-D arc integration of
`_bem.definecurvature_dv2` (compiled Fortran, outside src/) — running arc
length accumulated over successive station positions.  `cumArc p acc pts`
lists the arc length at each station of `pts`, continuing from a previous
station `p` at accumulated length `acc`. -/
noncomputable def cumArc (p : ℝ × ℝ × ℝ) (acc : ℝ) : List (ℝ × ℝ × ℝ) → List ℝ
  | [] => []
  | q :: rest => (acc + dist3 p q) :: cumArc q (acc + dist3 p q) rest

/-- Modelled from the spec: arc length per station, starting at 0 at the
first station. -/
noncomputable def arcLength : List (ℝ × ℝ × ℝ) → List ℝ
  | [] => []
  | p :: rest => 0 :: cumArc p 0 rest

/-- Modelled from the spec: the curvature-induced cone angle per station is
the arctangent of the local slope of precurve against radius (forward
difference; a single station has zero slope).  With zero precurve every
angle is zero, which is the only case the claims depend on. -/
noncomputable def coneAngles : List (ℝ × ℝ) → List ℝ
  | [] => []
  | [_] => [0]
  | p :: q :: rest => Real.arctan ((q.2 - p.2) / (q.1 - p.1)) :: coneAngles (q :: rest)

/-- Station positions as triples `(r, precurve, presweep)`. -/
def zip3 (r precurve presweep : List ℝ) : List (ℝ × ℝ × ℝ) :=
  r.zip (precurve.zip presweep)

/-- `BladeCurvature.compute` (source lines 482-505): the modelled curvature
integration post-processed exactly as the source does it —
`totalCone = precone + np.degrees(cone)` (line 498) and
`s = r[0] + s` (line 499).  Returns `(totalCone, s)`. -/
noncomputable def bladeCurvature (precone : ℝ) (r precurve presweep : List ℝ) :
    List ℝ × List ℝ :=
  let cone := coneAngles (r.zip precurve)
  let s := arcLength (zip3 r precurve presweep)
  (cone.map (fun c => precone + 180 / Real.pi * c),
   s.map (fun v => r.headD 0 + v))

/-! ## TipDeflection (source lines 1253-1289) -/

/-- A 3-vector with named components, as `DirectionVector` carries them. -/
structure V3 where
  x : ℝ
  y : ℝ
  z : ℝ

/-- Degrees to radians (all frame angles are in degrees). -/
noncomputable def deg2rad (d : ℝ) : ℝ :=
  d * Real.pi / 180

/-- Modelled from the spec: the `DirectionVector` frame rotations live in
`wisdem.commonse.csystem`, outside src/.  The spec fixes only the chain and
each operator's parameter (airfoil to blade by twist+pitch, blade to
azimuth by total cone, azimuth to hub by azimuth angle, hub to yaw by tilt,
all in degrees); each operator is embedded as a proper rotation about one
coordinate axis by the named angle.  Airfoil to blade: rotation about the
spanwise z-axis. -/
noncomputable def airfoilToBlade (theta : ℝ) (v : V3) : V3 :=
  let a := deg2rad theta
  ⟨v.x * Real.cos a + v.y * Real.sin a, -v.x * Real.sin a + v.y * Real.cos a, v.z⟩

/-- Modelled from the spec: blade to azimuth, rotation about the y-axis by
the total cone angle (degrees). -/
noncomputable def bladeToAzimuth (cone : ℝ) (v : V3) : V3 :=
  let a := deg2rad cone
  ⟨v.x * Real.cos a - v.z * Real.sin a, v.y, v.x * Real.sin a + v.z * Real.cos a⟩

/-- Modelled from the spec: azimuth to hub, rotation about the shaft x-axis
by the azimuth angle (degrees). -/
noncomputable def azimuthToHub (azimuth : ℝ) (v : V3) : V3 :=
  let a := deg2rad azimuth
  ⟨v.x, v.y * Real.cos a + v.z * Real.sin a, -v.y * Real.sin a + v.z * Real.cos a⟩

/-- Modelled from the spec: hub to yaw, rotation about the y-axis by the
shaft tilt angle (degrees). -/
noncomputable def hubToYaw (tilt : ℝ) (v : V3) : V3 :=
  let a := deg2rad tilt
  ⟨v.x * Real.cos a - v.z * Real.sin a, v.y, v.x * Real.sin a + v.z * Real.cos a⟩

/-- Inputs of `TipDeflection.compute` (source lines 1253-1289). -/
structure TipIn where
  dx : ℝ
  dy : ℝ
  dz : ℝ
  theta : ℝ
  pitch : ℝ
  azimuth : ℝ
  tilt : ℝ
  totalConeTip : ℝ
  hubHt : ℝ
  Rtip : ℝ
  precurveTip : ℝ
  presweepTip : ℝ
  gamma_m : ℝ
  dynamicFactor : ℝ
  downwind : Bool

/-- `TipDeflection.compute` (source lines 1253-1289).  Line 1260 sets
`azimuth = 180.0` (reading of `inputs['azimuth']` is commented out, so the
azimuth input is ignored).  The tip displacement is chained
airfoil-blade-azimuth-hub-yaw (line 1273) and scaled by the dynamic
amplification factor (line 1275); the undeflected tip position runs through
the same chain from the blade frame (line 1282);
`x_pos = coeff * blade_yaw.x + gamma_m * tip_deflection` with `coeff = 1`
upwind and `-1` downwind (lines 1285-1287), and
`ground_clearance = z_pos = hubHt + blade_yaw.z` (lines 1286, 1289).
Returns `(tip_deflection, x_pos, z_pos)`;
`tip_position = [x_pos, 0, z_pos]`. -/
noncomputable def tipDeflection (inp : TipIn) : ℝ × ℝ × ℝ :=
  let azimuth : ℝ := 180
  let theta := inp.theta + inp.pitch
  let delta :=
    hubToYaw inp.tilt (azimuthToHub azimuth
      (bladeToAzimuth inp.totalConeTip (airfoilToBlade theta ⟨inp.dx, inp.dy, inp.dz⟩)))
  let tip_deflection := inp.dynamicFactor * delta.x
  let blade_yaw :=
    hubToYaw inp.tilt (azimuthToHub azimuth
      (bladeToAzimuth inp.totalConeTip ⟨inp.precurveTip, inp.presweepTip, inp.Rtip⟩))
  let coeff : ℝ := if inp.downwind then -1 else 1
  let z_pos := inp.hubHt + blade_yaw.z
  let x_pos := coeff * blade_yaw.x + inp.gamma_m * tip_deflection
  (tip_deflection, x_pos, z_pos)

/-! ## Theorems -/

/-- C10: for every thrust pair `T`, torque pair `Q` and blade count `n`, the
extreme-load combiner returns `T_extreme = (T[0] + T[1] (n-1)) / n` but
returns `Q_extreme = 0` unconditionally, regardless of the torque input. -/
theorem extremeLoads_thrust_combined_torque_zeroed (T Q Q' : ℚ × ℚ) (n : ℕ) :
    extremeLoads T Q n = ((T.1 + T.2 * ((n : ℚ) - 1)) / (n : ℚ), 0) ∧
    extremeLoads T Q n = extremeLoads T Q' n :=
  ⟨rfl, rfl⟩

/-- C7: every strain margin equals `strain * gamma_f * gamma_m / ultimate`;
at strain 0.005, gamma_f 1.35, gamma_m 1.1, ultimate 0.01 the spar-upper
strain margin is exactly 0.7425; and the damage margins pass the input
damage values through unchanged. -/
theorem constraints_strain_damage_margins (i : ConstraintsIn) :
    ((constraintsStructures i).rotor_strain_sparU
        = i.strainU_spar * i.gamma_f * i.gamma_m / i.strain_ult_spar ∧
      (constraintsStructures i).rotor_strain_sparL
        = i.strainL_spar * i.gamma_f * i.gamma_m / i.strain_ult_spar ∧
      (constraintsStructures i).rotor_strain_teU
        = i.strainU_te * i.gamma_f * i.gamma_m / i.strain_ult_te ∧
      (constraintsStructures i).rotor_strain_teL
        = i.strainL_te * i.gamma_f * i.gamma_m / i.strain_ult_te) ∧
    (constraintsStructures { i with strainU_spar := 0.005, gamma_f := 1.35, gamma_m := 1.1, strain_ult_spar := 0.01 }).rotor_strain_sparU = 0.7425 ∧
    ((constraintsStructures i).rotor_damage_sparU = i.damageU_spar ∧
      (constraintsStructures i).rotor_damage_sparL = i.damageL_spar ∧
      (constraintsStructures i).rotor_damage_teU = i.damageU_te ∧
      (constraintsStructures i).rotor_damage_teL = i.damageL_te) := by
  refine ⟨⟨?_, ?_, ?_, ?_⟩, ?_, rfl, rfl, rfl, rfl⟩
  · simp only [constraintsStructures]; ring
  · simp only [constraintsStructures]; ring
  · simp only [constraintsStructures]; ring
  · simp only [constraintsStructures]; ring
  · norm_num [constraintsStructures]

/-- C5: the tip-deflection outputs are computed with the azimuth angle
fixed at 180 degrees, so they do not depend on the azimuth input; the tip
deflection is the dynamic amplification factor times the yaw-frame
x-component of the airfoil-frame displacement chained airfoil-blade (by
twist+pitch), blade-azimuth (by total cone), azimuth-hub (by azimuth 180),
hub-yaw (by tilt); and the yaw-frame tip x-position adds `gamma_m` times
that deflection to the (sign-adjusted) yaw-frame undeflected tip
x-coordinate. -/
theorem tipDeflection_azimuth180_chain (inp : TipIn) (az az' : ℝ) :
    tipDeflection { inp with azimuth := az } = tipDeflection { inp with azimuth := az' } ∧
    (tipDeflection inp).1 = inp.dynamicFactor *
      (hubToYaw inp.tilt (azimuthToHub 180 (bladeToAzimuth inp.totalConeTip
        (airfoilToBlade (inp.theta + inp.pitch) ⟨inp.dx, inp.dy, inp.dz⟩)))).x ∧
    (tipDeflection inp).2.1 = (if inp.downwind then -1 else 1) *
        (hubToYaw inp.tilt (azimuthToHub 180 (bladeToAzimuth inp.totalConeTip
          ⟨inp.precurveTip, inp.presweepTip, inp.Rtip⟩))).x
      + inp.gamma_m * (tipDeflection inp).1 ∧
    (tipDeflection inp).2.2 = inp.hubHt +
      (hubToYaw inp.tilt (azimuthToHub 180 (bladeToAzimuth inp.totalConeTip
        ⟨inp.precurveTip, inp.presweepTip, inp.Rtip⟩))).z :=
  ⟨rfl, rfl, rfl, rfl⟩

/-- C2: the recovered strains equal
`-(M1/EI1 y_p - M2/EI2 x_p + Fz/EA)` where the recovery point and the
moments — first swapped into the profile coordinate system, as the spec's
Hansen-notation convention has it — are rotated into the principal frame by
the angle alpha derived in `principalCS`. -/
theorem strain_principal_frame_formula
    (EIyy EIxx y_ec x_ec EA EIxy Mx My Fz xu yu xl yl : ℝ) :
    strain (principalCS EIyy EIxx y_ec x_ec EA EIxy) Mx My Fz xu yu xl yl =
      (-((rot2 (principalCS EIyy EIxx y_ec x_ec EA EIxy).alpha (My, Mx)).1
            / (principalCS EIyy EIxx y_ec x_ec EA EIxy).EI11
            * (rot2 (principalCS EIyy EIxx y_ec x_ec EA EIxy).alpha (yu, xu)).2
          - (rot2 (principalCS EIyy EIxx y_ec x_ec EA EIxy).alpha (My, Mx)).2
            / (principalCS EIyy EIxx y_ec x_ec EA EIxy).EI22
            * (rot2 (principalCS EIyy EIxx y_ec x_ec EA EIxy).alpha (yu, xu)).1
          + Fz / (principalCS EIyy EIxx y_ec x_ec EA EIxy).EA),
       -((rot2 (principalCS EIyy EIxx y_ec x_ec EA EIxy).alpha (My, Mx)).1
            / (principalCS EIyy EIxx y_ec x_ec EA EIxy).EI11
            * (rot2 (principalCS EIyy EIxx y_ec x_ec EA EIxy).alpha (yl, xl)).2
          - (rot2 (principalCS EIyy EIxx y_ec x_ec EA EIxy).alpha (My, Mx)).2
            / (principalCS EIyy EIxx y_ec x_ec EA EIxy).EI22
            * (rot2 (principalCS EIyy EIxx y_ec x_ec EA EIxy).alpha (yl, xl)).1
          + Fz / (principalCS EIyy EIxx y_ec x_ec EA EIxy).EA)) :=
  rfl

/-- C3: for every principal-frame state and damage-equivalent moments, the
fatigue damages equal `ln N - m (ln emax - ln eta - ln (abs strain))` where
the strains are recovered by the same principal-frame formula with
`Fz = 0`. -/
theorem damage_log_utilization (st : PrincipalCS) (Mx My xu yu xl yl emax eta m N : ℝ) :
    damage st Mx My xu yu xl yl emax eta m N =
      (Real.log N - m * (Real.log emax - Real.log eta
          - Real.log |(strain st Mx My 0 xu yu xl yl).1|),
       Real.log N - m * (Real.log emax - Real.log eta
          - Real.log |(strain st Mx My 0 xu yu xl yl).2|)) :=
  rfl

/-- C4: the critical buckling strain equals
`-(2 (pi/L)^2 (sqrt (D1 D2) + D3)) / (totalHeight E)` with sector length
`L = chord (loc_hi - loc_lo)`; it is negative for a physical laminate
(positive bending stiffnesses, thickness and modulus), and it varies as
`1/L^2`: scaling the chord (hence the sector length) by `c` divides it by
`c^2`. -/
theorem panelBuckling_formula_negative_scaling
    (chord loc_lo loc_hi D1 D2 D3 totalHeight E c : ℝ)
    (hD1 : 0 < D1) (hD2 : 0 < D2) (hD3 : 0 ≤ D3)
    (ht : 0 < totalHeight) (hE : 0 < E)
    (hL : 0 < chord * (loc_hi - loc_lo)) :
    panelBucklingStrain chord loc_lo loc_hi D1 D2 D3 totalHeight E =
      -(2 * (Real.pi / (chord * (loc_hi - loc_lo))) ^ 2 * (Real.sqrt (D1 * D2) + D3))
        / (totalHeight * E) ∧
    panelBucklingStrain chord loc_lo loc_hi D1 D2 D3 totalHeight E < 0 ∧
    panelBucklingStrain (c * chord) loc_lo loc_hi D1 D2 D3 totalHeight E =
      panelBucklingStrain chord loc_lo loc_hi D1 D2 D3 totalHeight E / c ^ 2 := by
  refine ⟨?_, ?_, ?_⟩
  · simp only [panelBucklingStrain]
    ring
  · simp only [panelBucklingStrain]
    have hsq : 0 < Real.sqrt (D1 * D2) + D3 := by
      have := Real.sqrt_pos.mpr (mul_pos hD1 hD2)
      linarith
    have hpil : 0 < (Real.pi / (chord * (loc_hi - loc_lo))) ^ 2 :=
      pow_pos (div_pos Real.pi_pos hL) 2
    have hN : 0 < 2 * (Real.pi / (chord * (loc_hi - loc_lo))) ^ 2
        * (Real.sqrt (D1 * D2) + D3) := by
      positivity
    have hpos := div_pos (div_pos hN ht) hE
    have hrw : -(2 * (Real.pi / (chord * (loc_hi - loc_lo))) ^ 2 * (Real.sqrt (D1 * D2) + D3))
          / totalHeight / E
        = -(2 * (Real.pi / (chord * (loc_hi - loc_lo))) ^ 2 * (Real.sqrt (D1 * D2) + D3)
          / totalHeight / E) := by ring
    rw [hrw]
    linarith
  · simp only [panelBucklingStrain]
    have key : (Real.pi / (c * chord * (loc_hi - loc_lo))) ^ 2
        = (Real.pi / (chord * (loc_hi - loc_lo))) ^ 2 / c ^ 2 := by
      rw [mul_assoc, mul_comm c, ← div_div, div_pow]
    rw [key]
    ring

/-- C4 witness: the hypotheses and the conclusion of
`panelBuckling_formula_negative_scaling` hold at the concrete section
chord 1, sector from 0 to 1, D1 = D2 = 1, D3 = 0, thickness 1, modulus 1,
scale factor 2. -/
theorem panelBuckling_formula_negative_scaling_witness :
    ((0:ℝ) < 1 ∧ (0:ℝ) ≤ 0 ∧ (0:ℝ) < 1 * (1 - 0)) ∧
    (panelBucklingStrain 1 0 1 1 1 0 1 1 =
        -(2 * (Real.pi / (1 * (1 - 0))) ^ 2 * (Real.sqrt (1 * 1) + 0)) / (1 * 1) ∧
      panelBucklingStrain 1 0 1 1 1 0 1 1 < 0 ∧
      panelBucklingStrain (2 * 1) 0 1 1 1 0 1 1 =
        panelBucklingStrain 1 0 1 1 1 0 1 1 / 2 ^ 2) :=
  ⟨⟨by norm_num, le_refl 0, by norm_num⟩,
    panelBuckling_formula_negative_scaling 1 0 1 1 1 0 1 1 2
      (by norm_num) (by norm_num) (le_refl 0) (by norm_num) (by norm_num) (by norm_num)⟩

/-- The four-quadrant arctangent of a positive number against zero is a
right angle, as in numpy. -/
theorem atan2_one_zero : atan2 1 0 = Real.pi / 2 := by
  unfold atan2
  norm_num

/-- C1: evaluation of `principalCS` at the failing input
EIxx = 1, EIyy = 2, EIxy = 1/2, x_ec = y_ec = 0, EA = 1 (the source's
argument order is `principalCS(EIyy, EIxx, y_ec, x_ec, EA, EIxy)`).
Because the source's sequential assignments overwrite EIxx with EIyy
before EIyy is read, both translated bending stiffnesses equal 2, the
angle becomes `alpha = atan2(1, 0)/2 = pi/4` instead of the angle of the
swapped section, and recomputing the cross term of the original
elastic-center section (profile axes: EIxx = 2, EIyy = 1, EIxy = 1/2) in
the frame rotated by that alpha yields 1/2, not 0 — refuting the claim's
nulling property. -/
theorem principalCS_failing_input_not_nulled :
    (principalCS 2 1 0 0 1 (1/2)).alpha = Real.pi / 4 ∧
    (principalCS 2 1 0 0 1 (1/2)).EI11 = 3 / 2 ∧
    (principalCS 2 1 0 0 1 (1/2)).EI22 = 5 / 2 ∧
    rotatedEIxy 2 1 (1/2) ((principalCS 2 1 0 0 1 (1/2)).alpha) = 1 / 2 ∧
    rotatedEIxy 2 1 (1/2) ((principalCS 2 1 0 0 1 (1/2)).alpha) ≠ 0 := by
  have halpha : (principalCS 2 1 0 0 1 (1/2)).alpha = Real.pi / 4 := by
    simp only [principalCS]
    norm_num [atan2_one_zero]
    ring
  have htan : Real.tan ((principalCS 2 1 0 0 1 (1/2)).alpha) = 1 := by
    rw [halpha, Real.tan_pi_div_four]
  have hrot : rotatedEIxy 2 1 (1/2) ((principalCS 2 1 0 0 1 (1/2)).alpha) = 1 / 2 := by
    rw [halpha]
    unfold rotatedEIxy
    have h2a : 2 * (Real.pi / 4) = Real.pi / 2 := by ring
    rw [h2a, Real.sin_pi_div_two, Real.cos_pi_div_two]
    norm_num
  have hEI11 : (principalCS 2 1 0 0 1 (1/2)).EI11
      = (2 - 0 ^ 2 * 1) - (1/2 - 0 * 0 * 1) * Real.tan ((principalCS 2 1 0 0 1 (1/2)).alpha) :=
    rfl
  have hEI22 : (principalCS 2 1 0 0 1 (1/2)).EI22
      = (2 - 0 ^ 2 * 1) + (1/2 - 0 * 0 * 1) * Real.tan ((principalCS 2 1 0 0 1 (1/2)).alpha) :=
    rfl
  refine ⟨halpha, ?_, ?_, hrot, ?_⟩
  · rw [hEI11, htan]; norm_num
  · rw [hEI22, htan]; norm_num
  · rw [hrot]; norm_num

/-- C8: evaluation of the resizer at a station whose spar sector base
thickness sums to zero (upper spar sector `[0, 0]`, target sparT = 5,
teT = 3, chord = chord_ref = 1).  The computation completes and returns a
value — the source has no raise statement, so no GeometryError (or any
exception) is possible; numpy's float division by zero would propagate
non-finite junk into the spar plies, modelled here by Lean's total
division, which maps the zero denominator to a zero scale factor.  In
either semantics a substituted value, not a failure, is produced. -/
theorem resizeStation_zero_sector_total :
    resizeStation ⟨1, 1, 5, 3, 0, 1, [[0, 0], [2]], [[0, 0], [2]], []⟩
      = ⟨1, 1, 5, 3, 0, 1, [[0, 0], [3]], [[0, 0], [3]], []⟩ := by
  simp [resizeStation, scaleSec, updSec, getSec]
  norm_num

/-- C9 counterexample: at the concrete station with chord = 2,
chord_ref = 1, unit targets, spar sector 0, TE sector 1 and all ply
thicknesses 1, the claim fails: the call mutates its inputs (the post-call
upper stacks are not the original `[[1], [1], [1]]`), and a second call on
the resulting state does not reproduce the first call's outputs. -/
theorem resize_repeat_unchanged_counterexample :
    ¬ (resizeStation (resizeStation ⟨2, 1, 1, 1, 0, 1, [[1], [1], [1]], [[1], [1], [1]], [[1]]⟩)
          = resizeStation ⟨2, 1, 1, 1, 0, 1, [[1], [1], [1]], [[1], [1], [1]], [[1]]⟩ ∧
        (resizeStation ⟨2, 1, 1, 1, 0, 1, [[1], [1], [1]], [[1], [1], [1]], [[1]]⟩).upperCS
          = [[1], [1], [1]]) := by
  simp [resizeStation, scaleSec, updSec, getSec]

/-- The update function applied to the empty sector list is the empty
list. -/
theorem updSec_nil (f : List ℚ → List ℚ) (i : ℕ) : updSec f i [] = [] := by
  cases i <;> rfl

/-- Updating sector 0 applies the function to the head. -/
theorem updSec_zero_cons (f : List ℚ → List ℚ) (a : List ℚ) (t : List (List ℚ)) :
    updSec f 0 (a :: t) = f a :: t := rfl

/-- Updating a later sector keeps the head and recurses. -/
theorem updSec_succ_cons (f : List ℚ → List ℚ) (n : ℕ) (a : List ℚ) (t : List (List ℚ)) :
    updSec f (n + 1) (a :: t) = a :: updSec f n t := rfl

/-- Sector lookup in the empty list is empty. -/
theorem getSec_nil (i : ℕ) : getSec [] i = [] := by
  cases i <;> rfl

/-- Sector lookup at index 0 returns the head. -/
theorem getSec_zero_cons (a : List ℚ) (t : List (List ℚ)) : getSec (a :: t) 0 = a := rfl

/-- Sector lookup at a successor index recurses into the tail. -/
theorem getSec_succ_cons (n : ℕ) (a : List ℚ) (t : List (List ℚ)) :
    getSec (a :: t) (n + 1) = getSec t n := rfl

/-- Scaling a sector by 1 changes nothing. -/
theorem scaleSec_one (sec : List ℚ) : scaleSec 1 sec = sec := by
  simp [scaleSec]

/-- Scaling every sector by 1 changes nothing. -/
theorem map_scaleSec_one (cs : List (List ℚ)) : cs.map (scaleSec 1) = cs := by
  have h : scaleSec 1 = fun sec => sec := funext scaleSec_one
  rw [h, List.map_id']

/-- The sum of a scaled sector is the scaled sum. -/
theorem sum_scaleSec (c : ℚ) (sec : List ℚ) : (scaleSec c sec).sum = sec.sum * c := by
  induction sec with
  | nil => simp [scaleSec]
  | cons a t ih => simp [scaleSec] at ih ⊢; rw [ih]; ring

/-- Updating a sector preserves the number of sectors. -/
theorem length_updSec (f : List ℚ → List ℚ) (i : ℕ) (cs : List (List ℚ)) :
    (updSec f i cs).length = cs.length := by
  induction cs generalizing i with
  | nil => rw [updSec_nil]
  | cons a t ih => cases i with
    | zero => rfl
    | succ n => simp [updSec_succ_cons, ih]

/-- Lookup of an in-range updated sector sees the update. -/
theorem getSec_updSec_self (f : List ℚ → List ℚ) (i : ℕ) (cs : List (List ℚ))
    (h : i < cs.length) : getSec (updSec f i cs) i = f (getSec cs i) := by
  induction cs generalizing i with
  | nil => simp at h
  | cons a t ih => cases i with
    | zero => rfl
    | succ n =>
      rw [updSec_succ_cons, getSec_succ_cons, getSec_succ_cons]
      exact ih n (by simpa using h)

/-- Lookup at a different index is unaffected by an update. -/
theorem getSec_updSec_ne (f : List ℚ → List ℚ) (i j : ℕ) (cs : List (List ℚ))
    (h : i ≠ j) : getSec (updSec f j cs) i = getSec cs i := by
  induction cs generalizing i j with
  | nil => rw [updSec_nil]
  | cons a t ih => cases j with
    | zero =>
      cases i with
      | zero => exact absurd rfl h
      | succ m => rfl
    | succ n =>
      cases i with
      | zero => rfl
      | succ m =>
        rw [updSec_succ_cons, getSec_succ_cons, getSec_succ_cons]
        exact ih m n (by omega)

/-- Out-of-range sector lookup is empty. -/
theorem getSec_eq_nil_of_le (cs : List (List ℚ)) (i : ℕ) (h : cs.length ≤ i) :
    getSec cs i = [] := by
  induction cs generalizing i with
  | nil => exact getSec_nil i
  | cons a t ih => cases i with
    | zero => simp at h
    | succ n =>
      rw [getSec_succ_cons]
      exact ih n (by simpa using h)

/-- Updating any sector with the unit scaling changes nothing. -/
theorem updSec_scaleSec_one (i : ℕ) (cs : List (List ℚ)) :
    updSec (scaleSec 1) i cs = cs := by
  induction cs generalizing i with
  | nil => exact updSec_nil _ i
  | cons a t ih => cases i with
    | zero => rw [updSec_zero_cons, scaleSec_one]
    | succ n => rw [updSec_succ_cons, ih]

/-- Normal form of one resize call when the scale factor
`chord / chord_ref` is 1: only the spar and TE sectors change, by the two
target renormalizations. -/
theorem resizeStation_mk_factor_one (ch cr sT tT : ℚ) (isp ite : ℕ)
    (u l w : List (List ℚ)) (hc : ch = cr) (hcr : cr ≠ 0) :
    resizeStation ⟨ch, cr, sT, tT, isp, ite, u, l, w⟩ =
      ⟨ch, cr, sT, tT, isp, ite,
        updSec (scaleSec (tT / (getSec u ite).sum)) ite
          (updSec (scaleSec (sT / (getSec u isp).sum)) isp u),
        updSec (scaleSec (tT / (getSec u ite).sum)) ite
          (updSec (scaleSec (sT / (getSec u isp).sum)) isp l),
        w⟩ := by
  subst hc
  have hf : ch / ch = 1 := div_self hcr
  simp only [resizeStation, hf, map_scaleSec_one]

/-- C9 amended: the resizer is a deterministic function of its state, but
it mutates its input laminate stacks in place (the outputs alias the
inputs), so its inputs are not left unchanged and a repeated call operates
on the already-resized stacks.  When the scale factor is 1
(chord = chord_ref, nonzero), the spar and TE sector indices are distinct,
and the base sector sums and the thickness targets are nonzero, the second
call reproduces the first: the mutated state is a fixed point. -/
theorem resize_fixed_point (s : ResizeState)
    (hc : s.chord = s.chord_ref) (hcr : s.chord_ref ≠ 0)
    (hij : s.idx_spar ≠ s.idx_te)
    (hts : (getSec s.upperCS s.idx_spar).sum ≠ 0)
    (htt : (getSec s.upperCS s.idx_te).sum ≠ 0)
    (hsT : s.sparT ≠ 0) (htT : s.teT ≠ 0) :
    resizeStation (resizeStation s) = resizeStation s := by
  obtain ⟨ch, cr, sT, tT, isp, ite, u, l, w⟩ := s
  dsimp only at hc hij hts htt hsT htT
  have hsp_lt : isp < u.length := by
    by_contra h
    push_neg at h
    exact hts (by rw [getSec_eq_nil_of_le u isp h]; rfl)
  have hte_lt : ite < u.length := by
    by_contra h
    push_neg at h
    exact htt (by rw [getSec_eq_nil_of_le u ite h]; rfl)
  rw [resizeStation_mk_factor_one ch cr sT tT isp ite u l w hc hcr]
  rw [resizeStation_mk_factor_one ch cr sT tT isp ite _ _ w hc hcr]
  have hU_sp : (getSec (updSec (scaleSec (tT / (getSec u ite).sum)) ite
      (updSec (scaleSec (sT / (getSec u isp).sum)) isp u)) isp).sum = sT := by
    rw [getSec_updSec_ne _ _ _ _ hij, getSec_updSec_self _ _ _ hsp_lt, sum_scaleSec]
    field_simp
  have hU_te : (getSec (updSec (scaleSec (tT / (getSec u ite).sum)) ite
      (updSec (scaleSec (sT / (getSec u isp).sum)) isp u)) ite).sum = tT := by
    rw [getSec_updSec_self _ _ _ (by rw [length_updSec]; exact hte_lt),
      getSec_updSec_ne _ _ _ _ (Ne.symm hij), sum_scaleSec]
    field_simp
  rw [hU_sp, hU_te, div_self hsT, div_self htT, updSec_scaleSec_one, updSec_scaleSec_one,
    updSec_scaleSec_one, updSec_scaleSec_one]

/-- C9 witness: the hypotheses and the conclusion of `resize_fixed_point`
hold at the concrete station with chord = chord_ref = 1, unit targets,
spar sector 0, TE sector 1 and stacks `[[2], [3], [4]]`. -/
theorem resize_fixed_point_witness :
    ((1 : ℚ) = 1 ∧ (1 : ℚ) ≠ 0 ∧ (0 : ℕ) ≠ 1 ∧
      (getSec [[2], [3], [4]] 0).sum ≠ 0 ∧ (getSec [[2], [3], [4]] 1).sum ≠ 0) ∧
    resizeStation (resizeStation ⟨1, 1, 1, 1, 0, 1, [[2], [3], [4]], [[2], [3], [4]], [[5]]⟩)
      = resizeStation ⟨1, 1, 1, 1, 0, 1, [[2], [3], [4]], [[2], [3], [4]], [[5]]⟩ :=
  ⟨⟨rfl, by norm_num, by omega,
    by rw [getSec_zero_cons]; norm_num,
    by rw [getSec_succ_cons, getSec_zero_cons]; norm_num⟩,
    resize_fixed_point ⟨1, 1, 1, 1, 0, 1, [[2], [3], [4]], [[2], [3], [4]], [[5]]⟩
      rfl (by norm_num) (by decide)
      (by rw [getSec_zero_cons]; norm_num)
      (by rw [getSec_succ_cons, getSec_zero_cons]; norm_num)
      (by norm_num) (by norm_num)⟩

/-- C6 counterexample: for r = [1, 2] with zero precurve and presweep and
zero precone, the arc-length output is [1, 2] (the source adds `r[0]` to
the accumulated arc length at line 499), not `[r0 - r0, r1 - r0] = [0, 1]`
as the claim states. -/
theorem bladeCurvature_s_counterexample :
    (bladeCurvature 0 [1, 2] [0, 0] [0, 0]).2 ≠ [1 - 1, 2 - 1] := by
  have hd : dist3 (1, 0, 0) (2, 0, 0) = 1 := by
    simp [dist3]
    norm_num
  simp [bladeCurvature, zip3, arcLength, cumArc, hd]

/-- With zero precurve and presweep, the cumulative arc over stations
ordered by radius advances exactly by the radius increments. -/
theorem cumArc_straight (xs : List ℝ) : ∀ (a acc : ℝ), List.Chain' (· ≤ ·) (a :: xs) →
    cumArc (a, 0, 0) acc (xs.map fun x => (x, 0, 0)) = xs.map fun x => acc + (x - a) := by
  induction xs with
  | nil => intro a acc _; rfl
  | cons x t ih =>
    intro a acc h
    obtain ⟨hax, h'⟩ := List.chain'_cons.mp h
    have hd : dist3 (a, 0, 0) (x, 0, 0) = x - a := by
      simp only [dist3]
      have harg : ((x:ℝ) - a) ^ 2 + ((0:ℝ) - 0) ^ 2 + ((0:ℝ) - 0) ^ 2 = (x - a) ^ 2 := by ring
      rw [harg, Real.sqrt_sq_eq_abs, abs_of_nonneg (by linarith)]
    show (acc + dist3 (a, 0, 0) (x, 0, 0)) ::
        cumArc (x, 0, 0) (acc + dist3 (a, 0, 0) (x, 0, 0)) (t.map fun y => (y, 0, 0))
      = (acc + (x - a)) :: t.map fun y => acc + (y - a)
    rw [hd, ih x (acc + (x - a)) h']
    have hfun : (fun y : ℝ => acc + (x - a) + (y - x)) = fun y : ℝ => acc + (y - a) := by
      funext y; ring
    rw [hfun]

/-- With zero precurve, every curvature-induced cone angle is zero. -/
theorem coneAngles_zero (l : List (ℝ × ℝ)) (h : ∀ p ∈ l, p.2 = 0) :
    coneAngles l = l.map fun _ => 0 := by
  induction l with
  | nil => rfl
  | cons p t ih =>
    cases t with
    | nil => rfl
    | cons q r =>
      have hp : p.2 = 0 := h p (by simp)
      have hq : q.2 = 0 := h q (by simp)
      show Real.arctan ((q.2 - p.2) / (q.1 - p.1)) :: coneAngles (q :: r)
        = 0 :: (q :: r).map fun _ => 0
      rw [hp, hq, sub_self, zero_div, Real.arctan_zero,
        ih (fun p hp => h p (List.mem_cons_of_mem _ hp))]

/-- Zipping a radius schedule with zero precurve and presweep gives the
straight station positions. -/
theorem zip3_zero (r : List ℝ) :
    zip3 r (r.map fun _ => 0) (r.map fun _ => 0) = r.map fun x => (x, (0:ℝ), (0:ℝ)) := by
  induction r with
  | nil => rfl
  | cons a t ih => simp [zip3] at ih ⊢; exact ih

/-- Zipping a radius schedule with zero precurve gives the straight slope
pairs. -/
theorem zip_zero (r : List ℝ) :
    r.zip (r.map fun _ => (0:ℝ)) = r.map fun x => (x, (0:ℝ)) := by
  induction r with
  | nil => rfl
  | cons a t ih =>
    show (a, (0:ℝ)) :: t.zip (t.map fun _ => (0:ℝ)) = (a, (0:ℝ)) :: t.map fun x => (x, (0:ℝ))
    rw [ih]

/-- C6 amended: with precurve = presweep = 0 and stations ordered by
radius, the arc-length output at station i is `r[i]` itself (the source
offsets the accumulated arc by `r[0]`, so s starts at `r[0]`, and
`s[i] - s[0] = r[i] - r[0]`), and the total cone output is the precone at
every station (the curvature-induced cone angle vanishes). -/
theorem bladeCurvature_straight (precone : ℝ) (r : List ℝ)
    (h : List.Chain' (· ≤ ·) r) :
    (bladeCurvature precone r (r.map fun _ => 0) (r.map fun _ => 0)).2 = r ∧
    (bladeCurvature precone r (r.map fun _ => 0) (r.map fun _ => 0)).1
      = r.map fun _ => precone := by
  constructor
  · show (arcLength (zip3 r (r.map fun _ => 0) (r.map fun _ => 0))).map
        (fun v => r.headD 0 + v) = r
    rw [zip3_zero]
    cases r with
    | nil => rfl
    | cons a t =>
      show ((0 : ℝ) :: cumArc (a, 0, 0) 0 (t.map fun x => (x, 0, 0))).map
          (fun v => a + v) = a :: t
      rw [cumArc_straight t a 0 h]
      simp only [List.map_cons, List.map_map]
      rw [add_zero]
      have hfun : ((fun v => a + v) ∘ fun x : ℝ => 0 + (x - a)) = fun x : ℝ => x := by
        funext y
        show a + (0 + (y - a)) = y
        ring
      rw [hfun, List.map_id']
  · show (coneAngles (r.zip (r.map fun _ => 0))).map (fun c => precone + 180 / Real.pi * c)
      = r.map fun _ => precone
    have hmem : ∀ p ∈ r.map (fun x : ℝ => (x, (0:ℝ))), p.2 = 0 := by
      intro p hp
      obtain ⟨x, hx, rfl⟩ := List.mem_map.mp hp
      rfl
    rw [zip_zero, coneAngles_zero _ hmem, List.map_map, List.map_map]
    have hf : ((fun c => precone + 180 / Real.pi * c) ∘ (fun _ : ℝ × ℝ => (0:ℝ)))
        ∘ (fun x : ℝ => (x, (0:ℝ))) = fun _ : ℝ => precone := by
      funext x
      show precone + 180 / Real.pi * 0 = precone
      ring
    rw [hf]

/-- C6 witness: the hypothesis and the conclusion of
`bladeCurvature_straight` hold at the concrete schedule r = [1, 2, 4],
precone = 5. -/
theorem bladeCurvature_straight_witness :
    List.Chain' (· ≤ ·) [(1:ℝ), 2, 4] ∧
    ((bladeCurvature 5 [1, 2, 4] ([(1:ℝ), 2, 4].map fun _ => 0)
          ([(1:ℝ), 2, 4].map fun _ => 0)).2 = [1, 2, 4] ∧
      (bladeCurvature 5 [1, 2, 4] ([(1:ℝ), 2, 4].map fun _ => 0)
          ([(1:ℝ), 2, 4].map fun _ => 0)).1 = [(1:ℝ), 2, 4].map fun _ => 5) :=
  ⟨by norm_num [List.chain'_cons], bladeCurvature_straight 5 [1, 2, 4]
    (by norm_num [List.chain'_cons])⟩

/-- For every point `(x, y)`, the four-quadrant arctangent satisfies
`x sin (atan2 y x) = y cos (atan2 y x)` — the direction `atan2 y x` is
aligned with `(x, y)`. -/
theorem x_sin_atan2_eq_y_cos_atan2 (y x : ℝ) :
    x * Real.sin (atan2 y x) = y * Real.cos (atan2 y x) := by
  unfold atan2
  rcases lt_trichotomy 0 x with hx | hx | hx
  · have hxne : x ≠ 0 := ne_of_gt hx
    have hs : Real.sqrt (1 + (y / x) ^ 2) ≠ 0 :=
      ne_of_gt (Real.sqrt_pos.mpr (by positivity))
    rw [if_pos hx, Real.sin_arctan, Real.cos_arctan]
    field_simp
    ring
  · rw [if_neg (by rw [← hx]; exact lt_irrefl 0), if_neg (by rw [← hx]; exact lt_irrefl 0)]
    rcases lt_trichotomy 0 y with hy | hy | hy
    · rw [if_pos hy, Real.sin_pi_div_two, Real.cos_pi_div_two, ← hx]
      ring
    · rw [if_neg (by rw [← hy]; exact lt_irrefl 0), if_neg (by rw [← hy]; exact lt_irrefl 0)]
      rw [Real.sin_zero, Real.cos_zero, ← hx, ← hy]
      ring
    · rw [if_neg (not_lt.mpr hy.le), if_pos hy]
      rw [Real.sin_neg, Real.cos_neg, Real.sin_pi_div_two, Real.cos_pi_div_two, ← hx]
      ring
  · rw [if_neg (not_lt.mpr hx.le), if_pos hx]
    have hxne : x ≠ 0 := ne_of_lt hx
    have hs : Real.sqrt (1 + (y / x) ^ 2) ≠ 0 :=
      ne_of_gt (Real.sqrt_pos.mpr (by positivity))
    rcases le_or_lt 0 y with hy | hy
    · rw [if_pos hy, Real.sin_add_pi, Real.cos_add_pi, Real.sin_arctan, Real.cos_arctan]
      field_simp
      ring
    · rw [if_neg (not_le.mpr hy), Real.sin_sub_pi, Real.cos_sub_pi,
        Real.sin_arctan, Real.cos_arctan]
      field_simp
      ring

/-- The intended principal-axis computation (actual swap) does null the
cross term: recomputing EIxy of the elastic-center section in the frame
rotated by its derived angle gives 0, for all inputs — the property the
spec requires, which the shipped `principalCS` violates. -/
theorem principalCS_intended_nulls_cross (EIyy EIxx y_ec x_ec EA EIxy : ℝ) :
    rotatedEIxy (EIyy - x_ec ^ 2 * EA) (EIxx - y_ec ^ 2 * EA) (EIxy - y_ec * x_ec * EA)
      ((principalCS_intended EIyy EIxx y_ec x_ec EA EIxy).alpha) = 0 := by
  simp only [principalCS_intended, rotatedEIxy]
  have h2 : 2 * (0.5 * atan2 (2 * (EIxy - y_ec * x_ec * EA))
        ((EIxx - y_ec ^ 2 * EA) - (EIyy - x_ec ^ 2 * EA)))
      = atan2 (2 * (EIxy - y_ec * x_ec * EA))
        ((EIxx - y_ec ^ 2 * EA) - (EIyy - x_ec ^ 2 * EA)) := by
    ring
  rw [h2]
  have key := x_sin_atan2_eq_y_cos_atan2 (2 * (EIxy - y_ec * x_ec * EA))
    ((EIxx - y_ec ^ 2 * EA) - (EIyy - x_ec ^ 2 * EA))
  linear_combination (-1 / 2) * key
